import Mathlib

/-!
Formal model of the two scripts of this repository:
`src/ai_generated_fibonacci.py` (a recursive Fibonacci calculator) and
`src/demo_calculator.py` (six arithmetic functions plus an inline test suite).

The Python functions are embedded shallowly: `fibonacci` becomes a Lean
function on `Int` (Python integers are unbounded), and the calculator
operations become functions on `ℚ` (the spec treats `/` as the exact real
quotient) and `ℤ` (for the integer floor-mod), with fallible operations
returning `Except CalcError`.

Definitions come first; all theorems follow.
-/

namespace FibScript

/-- Embedding of `fibonacci` from `src/ai_generated_fibonacci.py`:
`if n <= 0: return 0; elif n == 1: return 1;
else: return fibonacci(n-1) + fibonacci(n-2)`.
Python integers are unbounded, so the argument is `Int`. -/
def fibonacci (n : Int) : Int :=
  if n ≤ 0 then 0
  else if n = 1 then 1
  else fibonacci (n - 1) + fibonacci (n - 2)
termination_by n.toNat
decreasing_by
all_goals simp_wf
all_goals omega

/-- Structural companion of `fibonacci` on naturals, used to compute
concrete values of the well-founded definition. -/
def fibNat : Nat → Int
  | 0 => 0
  | 1 => 1
  | n + 2 => fibNat (n + 1) + fibNat n

/-- Call-depth model of the Python recursion: `fibonacciFuel fuel n` runs the
body of `fibonacci` allowing at most `fuel` nested calls, returning `none`
when the recursion would go deeper (i.e. when termination is in doubt). -/
def fibonacciFuel : Nat → Int → Option Int
  | 0, _ => none
  | fuel + 1, n =>
    if n ≤ 0 then some 0
    else if n = 1 then some 1
    else
      match fibonacciFuel fuel (n - 1), fibonacciFuel fuel (n - 2) with
      | some a, some b => some (a + b)
      | _, _ => none

end FibScript

namespace CalcScript

/-- Error kinds that the calculator operations of `src/demo_calculator.py`
can raise. `divisionByZero` models the guarded
`raise ValueError("Cannot divide by zero!")` in `divide` and `modulo`;
`zeroToNegativePower` models the ZeroDivisionError that Python raises when
`0 ** b` is evaluated with a negative exponent. -/
inductive CalcError : Type where
  | divisionByZero : CalcError
  | zeroToNegativePower : CalcError
deriving DecidableEq

/-- Embedding of `add`: `return a + b`. -/
def add (a b : ℚ) : ℚ := a + b

/-- Embedding of `subtract`: `return a - b`. -/
def subtract (a b : ℚ) : ℚ := a - b

/-- Embedding of `multiply`: `return a * b`. -/
def multiply (a b : ℚ) : ℚ := a * b

/-- Embedding of `divide`: `if b == 0: raise ValueError(...); return a / b`,
with the quotient taken exactly (the spec reads `/` as the real quotient). -/
def divide (a b : ℚ) : Except CalcError ℚ :=
  if b = 0 then .error .divisionByZero else .ok (a / b)

/-- Embedding of `power`: `return a ** b`. Python `**` on an integer
exponent raises ZeroDivisionError for a zero base and negative exponent,
and otherwise yields the exact value `a ^ b`. -/
def power (a : ℚ) (b : ℤ) : Except CalcError ℚ :=
  if a = 0 ∧ b < 0 then .error .zeroToNegativePower else .ok (a ^ b)

/-- Embedding of `modulo`: `if b == 0: raise ValueError(...); return a % b`.
Python `%` on integers is floor-mod, i.e. `Int.fmod`. -/
def modulo (a b : ℤ) : Except CalcError ℤ :=
  if b = 0 then .error .divisionByZero else .ok (Int.fmod a b)

/-- Embedding of Test 8 of the suite:
`(add(multiply(3, 4), power(2, 3)) - divide(16, 4))`. -/
def complexCalculation : Except CalcError ℚ := do
  let p ← power 2 3
  let d ← divide 16 4
  pure (add (multiply 3 4) p - d)

end CalcScript

namespace FibScript

/-- On natural-number inputs the integer embedding agrees with the
structural companion. -/
theorem fibonacci_ofNat (k : Nat) : fibonacci (k : Int) = fibNat k := by
  induction k using Nat.strong_induction_on with
  | _ k ih =>
    match k with
    | 0 =>
      rw [fibonacci]
      norm_num [fibNat]
    | 1 =>
      rw [fibonacci]
      norm_num [fibNat]
    | m + 2 =>
      rw [fibonacci]
      have h1 : ((m + 2 : Nat) : Int) - 1 = ((m + 1 : Nat) : Int) := by push_cast; ring
      have h2 : ((m + 2 : Nat) : Int) - 2 = ((m : Nat) : Int) := by push_cast; ring
      rw [if_neg (by omega), if_neg (by omega), h1, h2,
        ih (m + 1) (by omega), ih m (by omega)]
      rfl

/-- With more fuel than `n.toNat` the fuel model never runs out and agrees
with the total function. -/
theorem fibonacciFuel_correct : ∀ (fuel : Nat) (n : Int), n.toNat < fuel →
    fibonacciFuel fuel n = some (fibonacci n) := by
  intro fuel
  induction fuel with
  | zero =>
    intro n h
    omega
  | succ f ih =>
    intro n h
    rw [fibonacci]
    by_cases h0 : n ≤ 0
    · simp [fibonacciFuel, h0]
    · by_cases h1 : n = 1
      · simp [fibonacciFuel, h0, h1]
      · have e1 := ih (n - 1) (by omega)
        have e2 := ih (n - 2) (by omega)
        simp [fibonacciFuel, h0, h1, e1, e2]

/-- C1: for every integer n with 0 ≤ n ≤ 9, `fibonacci n` equals the nth
element of the canonical Fibonacci sequence 0, 1, 1, 2, 3, 5, 8, 13, 21, 34. -/
theorem fibonacci_first_ten (n : Int) (h0 : 0 ≤ n) (h9 : n ≤ 9) :
    fibonacci n = ([0, 1, 1, 2, 3, 5, 8, 13, 21, 34] : List Int).getD n.toNat 0 := by
  lift n to ℕ using h0 with k
  rw [fibonacci_ofNat, Int.toNat_natCast]
  have hk : k ≤ 9 := by exact_mod_cast h9
  interval_cases k <;> rfl

/-- Witness for C1 at the concrete input n = 9. -/
theorem fibonacci_first_ten_witness : fibonacci 9 = 34 := by
  have h := fibonacci_first_ten 9 (by decide) (by decide)
  rw [h]
  rfl

/-- C5: for every integer n ≤ 0, including every negative n,
`fibonacci n` is 0. -/
theorem fibonacci_nonpos (n : Int) (h : n ≤ 0) : fibonacci n = 0 := by
  rw [fibonacci, if_pos h]

/-- Witness for C5 at the concrete input n = -5. -/
theorem fibonacci_nonpos_witness : fibonacci (-5) = 0 :=
  fibonacci_nonpos (-5) (by decide)

/-- C6: `fibonacci` is total on the integers: for every integer n the double
recursion terminates within call depth `n.toNat + 1` and produces a value
(never `none`, i.e. never an error), the n ≤ 0 base case catching all
non-positive arguments. -/
theorem fibonacci_total (n : Int) :
    fibonacciFuel (n.toNat + 1) n = some (fibonacci n) :=
  fibonacciFuel_correct (n.toNat + 1) n (by omega)

end FibScript

namespace CalcScript

/-- Floor-mod with a negative divisor lands in the half-open interval
`(b, 0]`: the remainder carries the sign of the divisor. -/
theorem fmod_bounds_of_neg (a : Int) {b : Int} (hb : b < 0) :
    b < Int.fmod a b ∧ Int.fmod a b ≤ 0 := by
  obtain ⟨n, rfl⟩ : ∃ m : Nat, b = Int.negSucc m := by
    cases b with
    | ofNat m => exact absurd hb (by rw [Int.ofNat_eq_natCast]; omega)
    | negSucc m => exact ⟨m, rfl⟩
  cases a with
  | ofNat m =>
    cases m with
    | zero =>
      have hstep : Int.fmod (Int.ofNat 0) (Int.negSucc n) = 0 := rfl
      rw [hstep, Int.negSucc_eq]
      omega
    | succ k =>
      have hstep : Int.fmod (Int.ofNat (k + 1)) (Int.negSucc n) =
          Int.subNatNat (k % (n + 1)) n := rfl
      rw [hstep, Int.subNatNat_eq_coe, Int.negSucc_eq]
      have hlt : k % (n + 1) < n + 1 := Nat.mod_lt k (by omega)
      omega
  | negSucc m =>
    have hstep : Int.fmod (Int.negSucc m) (Int.negSucc n) =
        -Int.ofNat ((m + 1) % (n + 1)) := rfl
    rw [hstep, Int.negSucc_eq, Int.ofNat_eq_natCast]
    have hlt : (m + 1) % (n + 1) < n + 1 := Nat.mod_lt (m + 1) (by omega)
    omega

/-- C2: `divide a b` raises the DivisionByZero error kind exactly when
b = 0; for b ≠ 0 it returns the exact quotient a / b; and no error kind
other than DivisionByZero is ever raised by `divide`. -/
theorem divide_spec (a b : ℚ) :
    (divide a b = .error .divisionByZero ↔ b = 0) ∧
    (b ≠ 0 → divide a b = .ok (a / b)) ∧
    (∀ e : CalcError, divide a b = .error e → e = .divisionByZero) := by
  by_cases hb : b = 0 <;>
    refine ⟨?_, ?_, ?_⟩ <;> simp [divide, hb]

/-- Witness for C2 at the concrete inputs (10, 0) and (20, 5). -/
theorem divide_spec_witness :
    divide 10 0 = .error .divisionByZero ∧ divide 20 5 = .ok 4 := by
  constructor
  · exact (divide_spec 10 0).1.mpr rfl
  · rw [(divide_spec 20 5).2.1 (by norm_num)]
    norm_num

/-- C3: `modulo a b` raises the DivisionByZero error kind exactly when
b = 0 and no other error kind; for b ≠ 0 it returns the floor-mod remainder
`Int.fmod a b`, which differs from a by a multiple of b and whose sign
follows the sign of b (in [0, b) for b > 0, in (b, 0] for b < 0). -/
theorem modulo_spec (a b : ℤ) :
    (modulo a b = .error .divisionByZero ↔ b = 0) ∧
    (∀ e : CalcError, modulo a b = .error e → e = .divisionByZero) ∧
    (b ≠ 0 → modulo a b = .ok (Int.fmod a b) ∧
      b ∣ (a - Int.fmod a b) ∧
      (0 < b → 0 ≤ Int.fmod a b ∧ Int.fmod a b < b) ∧
      (b < 0 → b < Int.fmod a b ∧ Int.fmod a b ≤ 0)) := by
  by_cases hb : b = 0
  · refine ⟨?_, ?_, ?_⟩ <;> simp [modulo, hb]
  · refine ⟨by simp [modulo, hb], by simp [modulo, hb], fun _ => ?_⟩
    refine ⟨by simp [modulo, hb], ⟨Int.fdiv a b, ?_⟩, fun hpos => ?_, fun hneg => ?_⟩
    · have h := Int.fmod_add_fdiv a b
      linarith
    · exact ⟨Int.fmod_nonneg' a hpos, Int.fmod_lt_of_pos a hpos⟩
    · exact fmod_bounds_of_neg a hneg

/-- Witness for C3 at the concrete inputs (17, 5), (-7, 3) and (17, 0). -/
theorem modulo_spec_witness :
    modulo 17 5 = .ok 2 ∧ modulo (-7) 3 = .ok 2 ∧
    modulo 17 0 = .error .divisionByZero := by
  refine ⟨?_, ?_, (modulo_spec 17 0).1.mpr rfl⟩
  · rw [((modulo_spec 17 5).2.2 (by decide)).1]
    rfl
  · rw [((modulo_spec (-7) 3).2.2 (by decide)).1]
    rfl

/-- C4 counterexample: `power` does fail on one input pair: with base 0 and
exponent -1 it raises an error instead of returning a value. -/
theorem power_fails_at_zero_neg :
    power 0 (-1) = .error .zeroToNegativePower := rfl

/-- C4 amended: `power a b` returns the exact exponentiation a ^ b without
raising any error whenever the exponent is non-negative or the base is
non-zero; only a zero base with a negative exponent raises. -/
theorem power_total (a : ℚ) (b : ℤ) (h : 0 ≤ b ∨ a ≠ 0) :
    power a b = .ok (a ^ b) := by
  have hc : ¬(a = 0 ∧ b < 0) := by
    rcases h with hb | ha
    · rintro ⟨-, hlt⟩
      omega
    · rintro ⟨ha0, -⟩
      exact ha ha0
  rw [power, if_neg hc]

/-- Witness for C4 (amended) at the concrete input (2, 3). -/
theorem power_total_witness : power 2 3 = .ok 8 := by
  rw [power_total 2 3 (Or.inl (by decide))]
  norm_num

/-- C7: the composite expression of Test 8,
add(multiply(3, 4), power(2, 3)) - divide(16, 4), evaluates without error
to exactly 16. -/
theorem complexCalculation_ok : complexCalculation = .ok 16 := by
  rw [show complexCalculation =
      Except.ok (add (multiply 3 4) ((2 : ℚ) ^ (3 : ℤ)) - (16 : ℚ) / 4) from rfl]
  norm_num [add, multiply]

/-- C8: the six point evaluations of the test suite hold exactly:
add(5,3)=8, subtract(10,4)=6, multiply(6,7)=42, divide(20,5)=4,
power(2,10)=1024 and modulo(17,5)=2. -/
theorem point_evaluations :
    add 5 3 = 8 ∧ subtract 10 4 = 6 ∧ multiply 6 7 = 42 ∧
    divide 20 5 = .ok 4 ∧ power 2 10 = .ok 1024 ∧ modulo 17 5 = .ok 2 := by
  refine ⟨by norm_num [add], by norm_num [subtract], by norm_num [multiply],
    ?_, ?_, by rfl⟩
  · rw [show divide 20 5 = Except.ok ((20 : ℚ) / 5) from rfl]
    norm_num
  · rw [show power 2 10 = Except.ok ((2 : ℚ) ^ (10 : ℤ)) from rfl]
    norm_num

/-- C9: each of the six operations is deterministic: called twice with
identical inputs it produces identical results — identical values, and for
`divide` and `modulo` with a zero second operand identical error kinds —
there being no hidden state in the pure-function embedding. -/
theorem operations_deterministic (a b : ℚ) (e : ℤ) (x y : ℤ) :
    add a b = add a b ∧ subtract a b = subtract a b ∧
    multiply a b = multiply a b ∧ divide a b = divide a b ∧
    power a e = power a e ∧ modulo x y = modulo x y :=
  ⟨rfl, rfl, rfl, rfl, rfl, rfl⟩

/-- C10: round-trip of division through multiplication: for every a and
every b ≠ 0, `divide a b` succeeds with the exact quotient and multiplying
it back by b recovers a. -/
theorem divide_multiply_roundtrip (a b : ℚ) (h : b ≠ 0) :
    divide a b = .ok (a / b) ∧ multiply (a / b) b = a := by
  refine ⟨by simp [divide, h], ?_⟩
  rw [multiply, div_mul_cancel₀ a h]

/-- Witness for C10 at the concrete input (10, 4). -/
theorem divide_multiply_roundtrip_witness :
    divide 10 4 = .ok ((10 : ℚ) / 4) ∧ multiply ((10 : ℚ) / 4) 4 = 10 :=
  divide_multiply_roundtrip 10 4 (by norm_num)

end CalcScript
